/-
Verification of the model cache and training-job orchestration layer of the
sensorvision ML microservice (ml-service/app/services/model_loader.py and
ml-service/app/services/training_service.py), as a shallow embedding.

Modelling conventions:
- The OrderedDict cache is a list of (key, value) pairs in insertion order;
  the front of the list is the least-recently-used end (OrderedDict.popitem
  with last=False pops the front), the back is the most-recently-used end
  (move_to_end appends at the back).
- Filesystem paths are lists of segments of an absolute path; Path.resolve
  is modelled as lexical normalization of "", "." and ".." segments
  (symlink state is outside the embedding).  Path.relative_to succeeds
  exactly when the resolved storage segments form an initial run of the
  resolved path segments.
- Datetimes are abstract Nat instants; formatted timestamps are abstract
  strings passed in by the caller.
- Loading from disk is an abstract function from a resolved path to an
  optional engine value; exceptions become Except values.
-/
import Mathlib

/-- Association-list lookup, modelling Python dict access keyed by equality. -/
def assocLookup {κ α : Type} [DecidableEq κ] (key : κ) : List (κ × α) → Option α
  | [] => none
  | p :: tl => if p.1 = key then some p.2 else assocLookup key tl

/-- Association-list update of an existing key, preserving insertion order,
modelling assignment to a key already present in a Python dict. -/
def assocUpdate {κ α : Type} [DecidableEq κ] (key : κ) (v : α) :
    List (κ × α) → List (κ × α)
  | [] => []
  | p :: tl => if p.1 = key then (p.1, v) :: tl else p :: assocUpdate key v tl

/-- OrderedDict.move_to_end: move the entry for key (when present) to the
most-recently-used end of the list. -/
def moveToEnd {α : Type} (key : String) (l : List (String × α)) :
    List (String × α) :=
  match assocLookup key l with
  | none => l
  | some v => l.filter (fun p => p.1 ≠ key) ++ [(key, v)]

/-- The eviction loop of ModelLoader.get_model: while the cache holds more
than maxSize entries, pop the least-recently-used (front) entry. -/
def evictLoop {α : Type} (maxSize : Nat) : List α → List α
  | [] => []
  | x :: xs => if maxSize < xs.length + 1 then evictLoop maxSize xs else x :: xs

/-- State of a ModelLoader (model_loader.py): the LRU cache plus the metric
counters, all of which the Python class guards with one lock. -/
structure ModelLoader (α : Type) where
  max_cache_size : Nat
  cache : List (String × α) := []
  cache_hits : Nat := 0
  cache_misses : Nat := 0
  duplicate_loads : Nat := 0

/-- ModelLoader.__init__: empty cache, zeroed counters. -/
def initModelLoader (α : Type) (maxCacheSize : Nat) : ModelLoader α :=
  { max_cache_size := maxCacheSize }

/-- The second critical section of ModelLoader.get_model, entered after the
slow load finished: re-check the cache; on a concurrent insertion of the same
key, bump duplicate_loads, refresh recency and return the cached engine,
discarding the fresh one; otherwise insert the fresh engine at the
most-recently-used end and run the eviction loop. -/
def ModelLoader.after_load_insert {α : Type} (s : ModelLoader α) (key : String)
    (engine : α) : ModelLoader α × α :=
  match assocLookup key s.cache with
  | some cached =>
      ({ s with cache := moveToEnd key s.cache,
                duplicate_loads := s.duplicate_loads + 1 }, cached)
  | none =>
      ({ s with cache := evictLoop s.max_cache_size (s.cache ++ [(key, engine)]) },
       engine)

/-- ModelLoader.get_model in sequential semantics: hit path moves the entry
to the most-recently-used end and bumps cache_hits; miss path bumps
cache_misses, performs the load outside the lock, then runs the re-check /
insert / evict section. -/
def ModelLoader.get_model {α : Type} (s : ModelLoader α) (key : String)
    (load : Unit → α) : ModelLoader α × α :=
  match assocLookup key s.cache with
  | some e =>
      ({ s with cache := moveToEnd key s.cache, cache_hits := s.cache_hits + 1 }, e)
  | none =>
      ModelLoader.after_load_insert
        { s with cache_misses := s.cache_misses + 1 } key (load ())

/-- A sequence of get_model calls, each supplying the value its load would
produce. -/
def runGets {α : Type} (s : ModelLoader α) (calls : List (String × α)) :
    ModelLoader α :=
  calls.foldl (fun st c => (st.get_model c.1 (fun _ => c.2)).1) s

/-- One step of lexical path resolution: skip empty and "." segments, ".."
removes the last resolved segment (a no-op at the root), anything else is a
real segment. -/
def resolveStep (acc : List String) (seg : String) : List String :=
  if seg = "" ∨ seg = "." then acc
  else if seg = ".." then acc.dropLast
  else acc ++ [seg]

/-- Left-to-right resolution of a segment list onto an accumulator. -/
def resolveAcc (acc : List String) : List String → List String
  | [] => acc
  | seg :: rest => resolveAcc (resolveStep acc seg) rest

/-- Path.resolve on an absolute path, as lexical normalization of its
segments (symlinks are filesystem state, outside the embedding). -/
def resolvePath (p : List String) : List String := resolveAcc [] p

/-- Whether the first segment list is an initial run of the second; this is
exactly when Path.relative_to succeeds for absolute paths. -/
def isPfx : List String → List String → Bool
  | [], _ => true
  | _ :: _, [] => false
  | a :: as, b :: bs => if a = b then isPfx as bs else false

/-- The exception classes of model_loader.py that _load_model can surface. -/
inductive ModelError where
  | modelNotFound
  | invalidModelPath
  | modelLoadFailure
  | modelLoadTimeout
  | modelTypeMismatch
deriving DecidableEq

/-- ModelLoader._validate_path: resolve both the candidate path and the
storage root; accept exactly when the candidate stays inside the root,
otherwise raise InvalidModelPathError. -/
def validate_path (storagePath path : List String) :
    Except ModelError (List String) :=
  let resolved := resolvePath path
  let storageResolved := resolvePath storagePath
  if isPfx storageResolved resolved then Except.ok resolved
  else Except.error ModelError.invalidModelPath

/-- The default artifact path derived in ModelLoader._load_model when the
caller supplies no path: storage root joined with one segment made of the
model id string followed by the ".joblib" extension. -/
def default_model_path (storagePath : List String) (modelId : String) :
    List String :=
  storagePath ++ [modelId ++ ".joblib"]

/-- ModelLoader._load_model restricted to its path handling: pick the
caller-supplied or default path, validate it, then consult the filesystem
(an abstract map from resolved paths to engine values); a missing file is
ModelNotFoundError. -/
def load_model {α : Type} (storagePath : List String) (modelId : String)
    (modelPath : Option (List String)) (fs : List String → Option α) :
    Except ModelError α :=
  let path :=
    match modelPath with
    | some p => p
    | none => default_model_path storagePath modelId
  match validate_path storagePath path with
  | Except.error e => Except.error e
  | Except.ok resolved =>
      match fs resolved with
      | none => Except.error ModelError.modelNotFound
      | some m => Except.ok m

/-- The characters that can occur in str(uuid.UUID(...)): lowercase hex
digits and the dash. -/
def uuidChars : List Char := "0123456789abcdef-".toList

/-- Whether a string has the shape of str of a UUID: 36 characters, all
hex digits or dashes.  Such a string contains no path separator and is not
a "." or ".." segment. -/
def isUuidString (u : String) : Bool :=
  u.length == 36 && u.toList.all (fun c => uuidChars.contains c)

/-- The TrainingJobStatus enum of app/models/schemas.py. -/
inductive TrainingJobStatus where
  | PENDING
  | RUNNING
  | COMPLETED
  | FAILED
  | CANCELLED
deriving DecidableEq

/-- The MLModelType enum of app/models/schemas.py. -/
inductive MLModelType where
  | ANOMALY_DETECTION
  | PREDICTIVE_MAINTENANCE
  | ENERGY_FORECAST
  | EQUIPMENT_RUL
deriving DecidableEq

/-- The fields of the training_config dict that training_service.py reads. -/
structure TrainingConfig where
  n_samples : Option Int := none
  device_count : Option Int := none
deriving DecidableEq

/-- The TrainingJob record of training_service.py.  Job ids are abstract
Nats, datetimes abstract Nat instants, and the metrics mapping an opaque
string, since engine output is outside the specified core. -/
structure TrainingJob where
  id : Nat
  model_id : String
  organization_id : Int
  model_type : MLModelType
  job_type : String
  status : TrainingJobStatus := TrainingJobStatus.PENDING
  training_config : TrainingConfig := {}
  record_count : Option Int := none
  device_count : Option Int := none
  progress_percent : Int := 0
  current_step : Option String := none
  result_metrics : String := ""
  error_message : Option String := none
  started_at : Option Nat := none
  completed_at : Option Nat := none
  duration_seconds : Option Int := none
  created_at : Nat := 0
  logs : List String := []
deriving DecidableEq

/-- TrainingJob.add_log: append one timestamped entry to the log list. -/
def TrainingJob.add_log (j : TrainingJob) (timestamp message : String) :
    TrainingJob :=
  { j with logs := j.logs ++ ["[" ++ timestamp ++ "] " ++ message] }

/-- The in-memory job store of TrainingService. -/
structure TrainingService where
  jobs : List (Nat × TrainingJob) := []
deriving DecidableEq

/-- TrainingService.create_job: build a PENDING job, insert it into the
store, log its creation.  The insertion is unconditional: the source has no
capacity check and evicts nothing. -/
def TrainingService.create_job (s : TrainingService) (jobId : Nat)
    (modelId : String) (organizationId : Int) (modelType : MLModelType)
    (jobType : String) (config : TrainingConfig) (now : Nat) (ts : String) :
    TrainingService × TrainingJob :=
  let job : TrainingJob :=
    { id := jobId, model_id := modelId, organization_id := organizationId,
      model_type := modelType, job_type := jobType, training_config := config,
      created_at := now }
  let job := job.add_log ts
    ("Training job created: " ++ jobType ++ " for model " ++ modelId)
  ({ jobs := s.jobs ++ [(jobId, job)] }, job)

/-- TrainingService.update_job_progress: when the job exists, store exactly
the given percent and step and append one progress log line; the source
applies no monotonicity clamp. -/
def TrainingService.update_job_progress (s : TrainingService) (jobId : Nat)
    (progressPercent : Int) (currentStep ts : String) : TrainingService :=
  match assocLookup jobId s.jobs with
  | none => s
  | some job =>
      let job := { job with progress_percent := progressPercent,
                            current_step := some currentStep }
      let job := job.add_log ts
        ("Progress: " ++ toString progressPercent ++ "% - " ++ currentStep)
      { jobs := assocUpdate jobId job s.jobs }

/-- TrainingService.cancel_job: only PENDING or RUNNING jobs transition to
CANCELLED; terminal or absent jobs yield false without mutation. -/
def TrainingService.cancel_job (s : TrainingService) (jobId : Nat)
    (ts : String) (now : Nat) : TrainingService × Bool :=
  match assocLookup jobId s.jobs with
  | none => (s, false)
  | some job =>
      if job.status = TrainingJobStatus.PENDING ∨
         job.status = TrainingJobStatus.RUNNING then
        let job := { job with status := TrainingJobStatus.CANCELLED,
                              completed_at := some now,
                              duration_seconds := job.started_at.map
                                (fun st => (now : Int) - (st : Int)) }
        let job := job.add_log ts "Job cancelled"
        ({ jobs := assocUpdate jobId job s.jobs }, true)
      else (s, false)

/-- The entry section of TrainingService.run_training: an absent job or a
job not in PENDING state is a logged no-op; a PENDING job transitions to
RUNNING with its start stamped, and only then does the pipeline execute
(the returned flag). -/
def TrainingService.run_start (s : TrainingService) (jobId : Nat)
    (ts : String) (now : Nat) : TrainingService × Bool :=
  match assocLookup jobId s.jobs with
  | none => (s, false)
  | some job =>
      if job.status ≠ TrainingJobStatus.PENDING then (s, false)
      else
        ({ jobs := assocUpdate jobId
             (({ job with status := TrainingJobStatus.RUNNING,
                          started_at := some now }).add_log ts
               "Training started") s.jobs }, true)

/-- The completion section of TrainingService.run_training: the worker sets
COMPLETED, progress 100, metrics and timing unconditionally (the source does
not re-check that the job is still RUNNING). -/
def TrainingService.run_finish_success (s : TrainingService) (jobId : Nat)
    (metrics modelPath ts : String) (now : Nat) : TrainingService :=
  match assocLookup jobId s.jobs with
  | none => s
  | some job =>
      let job := { job with status := TrainingJobStatus.COMPLETED,
                            progress_percent := 100,
                            current_step := some "Training complete",
                            result_metrics := metrics,
                            completed_at := some now,
                            duration_seconds := job.started_at.map
                              (fun st => (now : Int) - (st : Int)) }
      let job := job.add_log ts
        ("Training completed successfully. Model saved to " ++ modelPath)
      let job := job.add_log ts ("Metrics: " ++ metrics)
      { jobs := assocUpdate jobId job s.jobs }

/-- The exception handler of TrainingService.run_training: the worker sets
FAILED, the error message and timing unconditionally. -/
def TrainingService.run_finish_failure (s : TrainingService) (jobId : Nat)
    (errorMessage ts : String) (now : Nat) : TrainingService :=
  match assocLookup jobId s.jobs with
  | none => s
  | some job =>
      let job := { job with status := TrainingJobStatus.FAILED,
                            error_message := some errorMessage,
                            completed_at := some now,
                            duration_seconds := job.started_at.map
                              (fun st => (now : Int) - (st : Int)) }
      let job := job.add_log ts ("Training failed: " ++ errorMessage)
      { jobs := assocUpdate jobId job s.jobs }

/-- The progress checkpoints issued by the run_training pipeline, in call
order (the completion section then stores 100). -/
def runProgressCheckpoints : List Int := [10, 20, 30, 80, 90, 100]

/-- Whether a list of integers is non-decreasing from left to right. -/
def nonDecreasingInts : List Int → Bool
  | [] => true
  | [_] => true
  | a :: b :: tl => if a ≤ b then nonDecreasingInts (b :: tl) else false

/-- TrainingService._generate_mock_data restricted to its record count and
column selection: n_samples is read from the config with default 1000 and
used directly; the source has no minimum or maximum bound on it and no
failure branch for it. -/
def generate_mock_data (modelType : MLModelType) (config : TrainingConfig) :
    Except String (Int × List String × Option String) :=
  let n := config.n_samples.getD 1000
  match modelType with
  | MLModelType.ENERGY_FORECAST =>
      Except.ok (n, ["temperature", "pressure", "current"],
        some "energy_consumption")
  | MLModelType.PREDICTIVE_MAINTENANCE =>
      Except.ok (n, ["temperature", "pressure", "vibration", "current"],
        some "failure")
  | MLModelType.EQUIPMENT_RUL =>
      Except.ok (n, ["temperature", "pressure", "vibration", "current"],
        some "rul_days")
  | MLModelType.ANOMALY_DETECTION =>
      Except.ok (n, ["temperature", "pressure", "vibration", "current"], none)

/-- Concrete loader used to instantiate the cache theorems: capacity 2,
fresh state. -/
def loaderC1 : ModelLoader Nat := initModelLoader Nat 2

/-- Concrete loader state used to instantiate the duplicate-load theorem:
the key "a" was inserted by a concurrent caller while our load ran. -/
def loaderC5 : ModelLoader Nat :=
  { max_cache_size := 2, cache := [("a", 7)], cache_misses := 1 }

/-- Concrete PENDING job used for the cancellation-overwrite scenario. -/
def jobC3 : TrainingJob :=
  { id := 1, model_id := "m1", organization_id := 1,
    model_type := MLModelType.ANOMALY_DETECTION, job_type := "INITIAL_TRAINING" }

/-- Store holding only jobC3. -/
def svcC3 : TrainingService := { jobs := [(1, jobC3)] }

/-- Concrete RUNNING (non-terminal, non-evictable) job for the capacity
scenario. -/
def jobC4 : TrainingJob :=
  { id := 0, model_id := "m0", organization_id := 1,
    model_type := MLModelType.ANOMALY_DETECTION,
    job_type := "INITIAL_TRAINING", status := TrainingJobStatus.RUNNING }

/-- Store at the spec scenario capacity of one, fully occupied by a RUNNING
job. -/
def svcC4 : TrainingService := { jobs := [(0, jobC4)] }

/-- Concrete RUNNING job with progress 50 for the progress-update scenario. -/
def jobC7 : TrainingJob :=
  { id := 1, model_id := "m", organization_id := 1,
    model_type := MLModelType.ANOMALY_DETECTION,
    job_type := "INITIAL_TRAINING", status := TrainingJobStatus.RUNNING,
    progress_percent := 50 }

/-- Store holding only jobC7. -/
def svcC7 : TrainingService := { jobs := [(1, jobC7)] }

/-- Concrete PENDING job for the duplicate-scheduling scenario. -/
def jobC9 : TrainingJob :=
  { id := 1, model_id := "m9", organization_id := 1,
    model_type := MLModelType.ENERGY_FORECAST, job_type := "INITIAL_TRAINING" }

/-- Store holding only jobC9. -/
def svcC9 : TrainingService := { jobs := [(1, jobC9)] }

/-- Helper: the eviction loop keeps exactly the suffix that fits, dropping
entries from the least-recently-used front. -/
theorem evictLoop_eq_drop {α : Type} (m : Nat) (l : List α) :
    evictLoop m l = l.drop (l.length - m) := by
  induction l with
  | nil => simp [evictLoop]
  | cons x xs ih =>
      unfold evictLoop
      by_cases h : m < xs.length + 1
      · rw [if_pos h, ih]
        have h1 : (x :: xs).length - m = (xs.length - m) + 1 := by
          simp only [List.length_cons]; omega
        rw [h1, List.drop_succ_cons]
      · rw [if_neg h]
        have h1 : (x :: xs).length - m = 0 := by
          simp only [List.length_cons]; omega
        rw [h1, List.drop_zero]

/-- Helper: the eviction loop enforces the size bound unconditionally. -/
theorem evictLoop_length_le {α : Type} (m : Nat) (l : List α) :
    (evictLoop m l).length ≤ m := by
  rw [evictLoop_eq_drop, List.length_drop]; omega

/-- Helper: an association list holding a key has a strictly larger length
than its filtered version with that key removed. -/
theorem assocLookup_filter_length {α : Type} (key : String)
    (l : List (String × α)) (v : α) (h : assocLookup key l = some v) :
    (l.filter (fun p => p.1 ≠ key)).length + 1 ≤ l.length := by
  induction l with
  | nil => simp [assocLookup] at h
  | cons p tl ih =>
      by_cases hp : p.1 = key
      · have hfilter : decide (p.1 ≠ key) = false := by simp [hp]
        simp only [List.filter, hfilter, List.length_cons]
        have := List.length_filter_le (fun q => decide (q.1 ≠ key)) tl
        omega
      · have htl : assocLookup key tl = some v := by
          simpa [assocLookup, hp] using h
        have hfilter : decide (p.1 ≠ key) = true := by simp [hp]
        simp only [List.filter, hfilter, List.length_cons]
        have := ih htl
        omega

/-- Helper: moving a present key to the most-recently-used end does not
increase the cache size. -/
theorem moveToEnd_length_le {α : Type} (key : String) (l : List (String × α))
    (v : α) (h : assocLookup key l = some v) :
    (moveToEnd key l).length ≤ l.length := by
  unfold moveToEnd
  rw [h]
  simp only [List.length_append, List.length_cons, List.length_nil]
  have := assocLookup_filter_length key l v h
  omega

/-- Helper: get_model never changes the configured maximum cache size. -/
theorem get_model_max_eq {α : Type} (s : ModelLoader α) (key : String)
    (load : Unit → α) :
    (s.get_model key load).1.max_cache_size = s.max_cache_size := by
  unfold ModelLoader.get_model ModelLoader.after_load_insert
  cases h : assocLookup key s.cache <;> simp [h]

/-- Helper: a single get_model call preserves the cache size bound. -/
theorem get_model_length_le {α : Type} (s : ModelLoader α) (key : String)
    (load : Unit → α) (h : s.cache.length ≤ s.max_cache_size) :
    (s.get_model key load).1.cache.length ≤ s.max_cache_size := by
  unfold ModelLoader.get_model ModelLoader.after_load_insert
  cases hl : assocLookup key s.cache with
  | some v =>
      simp only
      exact le_trans (moveToEnd_length_le key s.cache v hl) h
  | none =>
      simp only [hl]
      exact evictLoop_length_le _ _

/-- Helper: a sequence of get_model calls keeps the cache within the initial
configured bound. -/
theorem runGets_bound {α : Type} (calls : List (String × α))
    (s0 : ModelLoader α) (h : s0.cache.length ≤ s0.max_cache_size) :
    (runGets s0 calls).cache.length ≤ s0.max_cache_size := by
  induction calls generalizing s0 with
  | nil => simpa [runGets] using h
  | cons c rest ih =>
      have hstep := get_model_length_le s0 c.1 (fun _ => c.2) h
      have hmax := get_model_max_eq s0 c.1 (fun _ => c.2)
      have hrec := ih ((s0.get_model c.1 (fun _ => c.2)).1)
        (by rw [hmax]; exact hstep)
      rw [hmax] at hrec
      simp only [runGets, List.foldl] at hrec ⊢
      exact hrec

/-- Claim C1: for every sequence of get calls the cache holds at most
max_cache_size entries afterwards; on a hit the entry moves to the
most-recently-used end (recency refresh); on a miss the new entry is
appended at the most-recently-used end and the cache becomes the fitting
suffix of that list, so the removed entries are exactly the
least-recently-used front at that moment. -/
theorem modelCache_lru_bound_and_eviction (α : Type) :
    (∀ (s0 : ModelLoader α) (calls : List (String × α)),
        s0.cache.length ≤ s0.max_cache_size →
        (runGets s0 calls).cache.length ≤ s0.max_cache_size)
    ∧ (∀ (s : ModelLoader α) (key : String) (load : Unit → α) (v : α),
        assocLookup key s.cache = some v →
        (s.get_model key load).1.cache = moveToEnd key s.cache)
    ∧ (∀ (s : ModelLoader α) (key : String) (load : Unit → α),
        assocLookup key s.cache = none →
        (s.get_model key load).1.cache =
          (s.cache ++ [(key, load ())]).drop
            ((s.cache ++ [(key, load ())]).length - s.max_cache_size)) := by
  refine ⟨fun s0 calls h => runGets_bound calls s0 h, ?_, ?_⟩
  · intro s key load v h
    simp [ModelLoader.get_model, h]
  · intro s key load h
    simp [ModelLoader.get_model, ModelLoader.after_load_insert, h,
      evictLoop_eq_drop]

/-- Witness for claim C1 at a concrete loader of capacity 2 and four calls
(three distinct keys, one repeat). -/
theorem modelCache_lru_bound_and_eviction_witness :
    loaderC1.cache.length ≤ loaderC1.max_cache_size
    ∧ (runGets loaderC1 [("a", 1), ("b", 2), ("c", 3), ("a", 4)]).cache.length
        ≤ loaderC1.max_cache_size :=
  ⟨by decide,
   (modelCache_lru_bound_and_eviction Nat).1 loaderC1
     [("a", 1), ("b", 2), ("c", 3), ("a", 4)] (by decide)⟩

/-- Claim C5: after the slow load, the re-check under the lock either finds
the key already cached — then the cached instance is returned, the fresh one
is discarded (the cache is only reordered), and duplicate_loads is
incremented by exactly one — or inserts and returns the fresh instance with
duplicate_loads unchanged. -/
theorem modelCache_duplicate_load (α : Type) (s : ModelLoader α)
    (key : String) (engine : α) :
    match assocLookup key s.cache with
    | some cached =>
        (s.after_load_insert key engine).2 = cached
        ∧ (s.after_load_insert key engine).1.duplicate_loads
            = s.duplicate_loads + 1
        ∧ (s.after_load_insert key engine).1.cache = moveToEnd key s.cache
    | none =>
        (s.after_load_insert key engine).2 = engine
        ∧ (s.after_load_insert key engine).1.duplicate_loads
            = s.duplicate_loads
        ∧ (s.after_load_insert key engine).1.cache
            = evictLoop s.max_cache_size (s.cache ++ [(key, engine)]) := by
  cases h : assocLookup key s.cache <;>
    simp [ModelLoader.after_load_insert, h]

/-- Helper: resolution processes concatenated segment lists left to right. -/
theorem resolveAcc_append (acc : List String) (l1 l2 : List String) :
    resolveAcc acc (l1 ++ l2) = resolveAcc (resolveAcc acc l1) l2 := by
  induction l1 generalizing acc with
  | nil => simp [resolveAcc]
  | cons seg rest ih => simp [resolveAcc, ih]

/-- Helper: appending one ordinary segment (not empty, not ".", not "..")
commutes with resolution. -/
theorem resolvePath_append_seg (p : List String) (seg : String)
    (h1 : seg ≠ "") (h2 : seg ≠ ".") (h3 : seg ≠ "..") :
    resolvePath (p ++ [seg]) = resolvePath p ++ [seg] := by
  unfold resolvePath
  rw [resolveAcc_append]
  simp [resolveAcc, resolveStep, h1, h2, h3]

/-- Helper: every segment list is an initial run of itself extended. -/
theorem isPfx_append_self (l t : List String) : isPfx l (l ++ t) = true := by
  induction l with
  | nil => simp [isPfx]
  | cons a as ih => simp [isPfx, ih]

/-- Helper: a string ending in the ".joblib" extension is an ordinary path
segment: not empty, not "." and not "..". -/
theorem joblib_seg_ordinary (u : String) :
    u ++ ".joblib" ≠ "" ∧ u ++ ".joblib" ≠ "." ∧ u ++ ".joblib" ≠ ".." := by
  have h7 : (".joblib" : String).length = 7 := rfl
  have h0 : ("" : String).length = 0 := rfl
  have h1 : ("." : String).length = 1 := rfl
  have h2 : (".." : String).length = 2 := rfl
  have hlen : (u ++ ".joblib").length = u.length + 7 := by
    rw [String.length_append, h7]
  refine ⟨?_, ?_, ?_⟩ <;> intro h <;> rw [h] at hlen
  · rw [h0] at hlen; omega
  · rw [h1] at hlen; omega
  · rw [h2] at hlen; omega

/-- Claim C2: a path whose resolved segments lie outside the resolved
storage root is rejected with InvalidModelPathError, and in that case
_load_model returns that error no matter what the filesystem holds (no load
is attempted); a path resolving inside the root is never rejected by this
check.  The ".." segments of the raw path are normalized away by
resolvePath before the containment test, so the rejection depends only on
the resolved location. -/
theorem validate_path_rejects_exactly_outside :
    (∀ (storagePath path : List String),
        isPfx (resolvePath storagePath) (resolvePath path) = false →
        validate_path storagePath path
          = Except.error ModelError.invalidModelPath
        ∧ ∀ (α : Type) (modelId : String) (fs : List String → Option α),
            load_model storagePath modelId (some path) fs
              = Except.error ModelError.invalidModelPath)
    ∧ (∀ (storagePath path : List String),
        isPfx (resolvePath storagePath) (resolvePath path) = true →
        validate_path storagePath path = Except.ok (resolvePath path)) := by
  constructor
  · intro storagePath path h
    constructor
    · simp [validate_path, h]
    · intro α modelId fs
      simp [load_model, validate_path, h]
  · intro storagePath path h
    simp [validate_path, h]

/-- Witness for claim C2: the storage root srv/models, a traversal path
using two ".." segments that resolves to etc/shadow (rejected, whatever the
filesystem holds), and a path using one ".." segment that resolves back
inside the root (accepted). -/
theorem validate_path_rejects_exactly_outside_witness :
    (isPfx (resolvePath ["srv", "models"])
        (resolvePath ["srv", "models", "..", "..", "etc", "shadow"]) = false
      ∧ validate_path ["srv", "models"]
          ["srv", "models", "..", "..", "etc", "shadow"]
          = Except.error ModelError.invalidModelPath
      ∧ load_model ["srv", "models"] "x"
          (some ["srv", "models", "..", "..", "etc", "shadow"])
          (fun _ => some (0 : Nat))
          = Except.error ModelError.invalidModelPath)
    ∧ (isPfx (resolvePath ["srv", "models"])
        (resolvePath ["srv", "models", "sub", "..", "m.joblib"]) = true
      ∧ validate_path ["srv", "models"] ["srv", "models", "sub", "..", "m.joblib"]
          = Except.ok ["srv", "models", "m.joblib"]) := by
  have hout := validate_path_rejects_exactly_outside.1
    ["srv", "models"] ["srv", "models", "..", "..", "etc", "shadow"] (by decide)
  have hin := validate_path_rejects_exactly_outside.2
    ["srv", "models"] ["srv", "models", "sub", "..", "m.joblib"] (by decide)
  exact ⟨⟨by decide, hout.1, hout.2 Nat "x" (fun _ => some 0)⟩,
    ⟨by decide, by rw [hin]; rfl⟩⟩

/-- Claim C10: with no caller-supplied path, the derived default path —
storage root joined with the single segment made of the UUID string and the
".joblib" extension — always resolves inside the storage root, so
validation accepts it and _load_model can never surface
InvalidModelPathError.  A UUID string (36 hex-or-dash characters) contains
no path separator, so it forms exactly one ordinary segment. -/
theorem default_path_never_invalid (storagePath : List String)
    (modelId : String) (h : isUuidString modelId = true) :
    ('/' : Char) ∉ modelId.toList
    ∧ validate_path storagePath (default_model_path storagePath modelId)
      = Except.ok (resolvePath storagePath ++ [modelId ++ ".joblib"])
    ∧ ∀ (α : Type) (fs : List String → Option α),
        load_model storagePath modelId none fs
          ≠ Except.error ModelError.invalidModelPath := by
  have hnosep : ('/' : Char) ∉ modelId.toList := by
    intro hmem
    have hb := h
    unfold isUuidString at hb
    rw [Bool.and_eq_true] at hb
    have hc := List.all_eq_true.mp hb.2 _ hmem
    exact absurd hc (by decide)
  refine ⟨hnosep, ?_⟩
  obtain ⟨h1, h2, h3⟩ := joblib_seg_ordinary modelId
  have hres : resolvePath (storagePath ++ [modelId ++ ".joblib"])
      = resolvePath storagePath ++ [modelId ++ ".joblib"] :=
    resolvePath_append_seg storagePath (modelId ++ ".joblib") h1 h2 h3
  have hval : validate_path storagePath (default_model_path storagePath modelId)
      = Except.ok (resolvePath storagePath ++ [modelId ++ ".joblib"]) := by
    simp [validate_path, default_model_path, hres, isPfx_append_self]
  refine ⟨hval, ?_⟩
  intro α fs
  simp only [load_model]
  rw [hval]
  cases hfs : fs (resolvePath storagePath ++ [modelId ++ ".joblib"]) <;>
    simp [hfs]

/-- Witness for claim C10 at the storage root app/models and a concrete
UUID string. -/
theorem default_path_never_invalid_witness :
    isUuidString "123e4567-e89b-12d3-a456-426614174000" = true
    ∧ validate_path ["app", "models"]
        (default_model_path ["app", "models"]
          "123e4567-e89b-12d3-a456-426614174000")
        = Except.ok (resolvePath ["app", "models"]
            ++ ["123e4567-e89b-12d3-a456-426614174000" ++ ".joblib"])
    ∧ load_model ["app", "models"] "123e4567-e89b-12d3-a456-426614174000"
        none (fun _ => none (α := Nat))
        ≠ Except.error ModelError.invalidModelPath := by
  have h := default_path_never_invalid ["app", "models"]
    "123e4567-e89b-12d3-a456-426614174000" (by decide)
  exact ⟨by decide, h.2.1, h.2.2 Nat (fun _ => none)⟩

/-- Helper: updating a key present in an association list makes lookup
return the new value. -/
theorem assocLookup_assocUpdate_self {κ α : Type} [DecidableEq κ] (k : κ)
    (v : α) (l : List (κ × α)) (h : (assocLookup k l).isSome = true) :
    assocLookup k (assocUpdate k v l) = some v := by
  induction l with
  | nil => simp [assocLookup] at h
  | cons p tl ih =>
      by_cases hp : p.1 = k
      · simp [assocUpdate, assocLookup, hp]
      · have htl : (assocLookup k tl).isSome = true := by
          simpa [assocLookup, hp] using h
        simp [assocUpdate, assocLookup, hp, ih htl]

/-- Claim C3, failing scenario: run_training starts a PENDING job (now
RUNNING), a concurrent cancel_job marks it CANCELLED (a terminal state),
and the worker completion section then stores COMPLETED unconditionally —
the terminal CANCELLED status is overwritten because the source never
re-checks that the job is still RUNNING. -/
theorem completed_overwrites_cancelled :
    ((assocLookup 1 ((svcC3.run_start 1 "t1" 10).1).jobs).map
        TrainingJob.status = some TrainingJobStatus.RUNNING)
    ∧ ((assocLookup 1 (((svcC3.run_start 1 "t1" 10).1.cancel_job 1 "t2"
        20).1).jobs).map TrainingJob.status = some TrainingJobStatus.CANCELLED)
    ∧ ((assocLookup 1 ((((svcC3.run_start 1 "t1" 10).1.cancel_job 1 "t2"
        20).1).run_finish_success 1 "accuracy=0.9" "models/m1.joblib" "t3"
        30).jobs).map TrainingJob.status = some TrainingJobStatus.COMPLETED) := by
  refine ⟨rfl, rfl, rfl⟩

/-- Claim C4, failing scenario: the store is fully occupied by RUNNING
(non-terminal) jobs, yet create_job succeeds unconditionally — its type has
no error outcome — growing the store past the occupancy and evicting
nothing (the prior job is still present). -/
theorem create_job_ignores_capacity :
    (svcC4.jobs.map (fun p => p.2.status) = [TrainingJobStatus.RUNNING])
    ∧ ((svcC4.create_job 1 "m1" 1 MLModelType.ANOMALY_DETECTION
        "INITIAL_TRAINING" {} 5 "t").1.jobs.length = svcC4.jobs.length + 1)
    ∧ ((assocLookup 0 ((svcC4.create_job 1 "m1" 1
        MLModelType.ANOMALY_DETECTION "INITIAL_TRAINING" {} 5
        "t").1.jobs)).map TrainingJob.status
        = some TrainingJobStatus.RUNNING) := by
  refine ⟨rfl, rfl, rfl⟩

/-- Claim C6, failing behavior: add_log appends unconditionally, so after
any sequence of log calls the log list is the original list followed by all
new entries — its length grows without any bound and no oldest entry is
ever dropped. -/
theorem add_log_unbounded :
    ∀ (j : TrainingJob) (entries : List (String × String)),
      (entries.foldl (fun job e => job.add_log e.1 e.2) j).logs
        = j.logs ++ entries.map (fun e => "[" ++ e.1 ++ "] " ++ e.2)
      ∧ (entries.foldl (fun job e => job.add_log e.1 e.2) j).logs.length
        = j.logs.length + entries.length := by
  have hmain : ∀ (entries : List (String × String)) (j : TrainingJob),
      (entries.foldl (fun job e => job.add_log e.1 e.2) j).logs
        = j.logs ++ entries.map (fun e => "[" ++ e.1 ++ "] " ++ e.2) := by
    intro entries
    induction entries with
    | nil => intro j; simp
    | cons e tl ih =>
        intro j
        simp only [List.foldl, List.map]
        rw [ih (j.add_log e.1 e.2)]
        simp [TrainingJob.add_log]
  intro j entries
  refine ⟨hmain entries j, ?_⟩
  rw [hmain entries j]
  simp

/-- Claim C7, counterexample: update_job_progress applies no monotonicity
clamp — a call with percent 10 on a RUNNING job whose stored progress is 50
lowers the stored value to 10. -/
theorem update_progress_can_decrease :
    ((assocLookup 1 svcC7.jobs).map TrainingJob.progress_percent = some 50)
    ∧ ((assocLookup 1 (svcC7.update_job_progress 1 10 "step" "t").jobs).map
        TrainingJob.progress_percent = some 10)
    ∧ (10 : Int) < 50 := by
  refine ⟨rfl, rfl, by decide⟩

/-- Claim C7 as amended: update_job_progress stores exactly the given
percent (so a smaller argument does decrease the value) and appends exactly
one progress log line; the stored progress is non-decreasing across an
actual run only because the pipeline issues the fixed non-decreasing
checkpoint sequence 10, 20, 30, 80, 90, 100. -/
theorem update_progress_amended :
    (∀ (s : TrainingService) (jobId : Nat) (j : TrainingJob) (p : Int)
        (step ts : String),
        assocLookup jobId s.jobs = some j →
        assocLookup jobId (s.update_job_progress jobId p step ts).jobs
          = some (({ j with progress_percent := p,
                            current_step := some step }).add_log ts
              ("Progress: " ++ toString p ++ "% - " ++ step)))
    ∧ nonDecreasingInts runProgressCheckpoints = true := by
  constructor
  · intro s jobId j p step ts h
    simp only [TrainingService.update_job_progress, h]
    exact assocLookup_assocUpdate_self jobId _ s.jobs (by rw [h]; rfl)
  · decide

/-- Witness for the amended claim C7 at the concrete store: the update to
percent 10 stores 10 and appends one log line. -/
theorem update_progress_amended_witness :
    assocLookup 1 svcC7.jobs = some jobC7
    ∧ assocLookup 1 (svcC7.update_job_progress 1 10 "step" "t").jobs
        = some (({ jobC7 with progress_percent := 10,
                              current_step := some "step" }).add_log "t"
            ("Progress: " ++ toString (10 : Int) ++ "% - " ++ "step")) :=
  ⟨by decide,
   update_progress_amended.1 svcC7 1 jobC7 10 "step" "t" (by decide)⟩

/-- Claim C8, failing behavior: the data stage reads n_samples from the
config (default 1000) and performs no minimum or maximum bound check — at
n_samples 9 (one below the bound the tests import as MIN_N_SAMPLES = 10)
stage 1 succeeds with 9 records instead of failing with a sample-count
error, and it succeeds for every requested count. -/
theorem generate_mock_data_no_bounds :
    generate_mock_data MLModelType.ANOMALY_DETECTION { n_samples := some 9 }
      = Except.ok (9, ["temperature", "pressure", "vibration", "current"], none)
    ∧ ∀ (modelType : MLModelType) (n : Int),
        ∃ out, generate_mock_data modelType { n_samples := some n }
          = Except.ok out := by
  refine ⟨rfl, ?_⟩
  intro modelType n
  cases modelType <;> exact ⟨_, rfl⟩

/-- Claim C9: run_training on a missing job or a job not in PENDING state
returns without mutating anything and without executing the pipeline; on a
PENDING job the first call transitions it to RUNNING and executes the
pipeline, and an immediately repeated call is a pure no-op — so the
pipeline runs at most once per job id. -/
theorem run_training_duplicate_noop (s : TrainingService) (jid : Nat)
    (ts1 ts2 : String) (n1 n2 : Nat) :
    (assocLookup jid s.jobs = none → s.run_start jid ts1 n1 = (s, false))
    ∧ (∀ j, assocLookup jid s.jobs = some j →
        j.status ≠ TrainingJobStatus.PENDING →
        s.run_start jid ts1 n1 = (s, false))
    ∧ (∀ j, assocLookup jid s.jobs = some j →
        j.status = TrainingJobStatus.PENDING →
        (s.run_start jid ts1 n1).2 = true
        ∧ (s.run_start jid ts1 n1).1.run_start jid ts2 n2
            = ((s.run_start jid ts1 n1).1, false)) := by
  refine ⟨?_, ?_, ?_⟩
  · intro h
    simp [TrainingService.run_start, h]
  · intro j hj hst
    simp [TrainingService.run_start, hj, hst]
  · intro j hj hp
    have h1 : s.run_start jid ts1 n1
        = ({ jobs := assocUpdate jid
              (({ j with status := TrainingJobStatus.RUNNING,
                         started_at := some n1 }).add_log ts1
                "Training started") s.jobs }, true) := by
      simp [TrainingService.run_start, hj, hp]
    rw [h1]
    refine ⟨rfl, ?_⟩
    have h2 : assocLookup jid (assocUpdate jid
        (({ j with status := TrainingJobStatus.RUNNING,
                   started_at := some n1 }).add_log ts1
          "Training started") s.jobs)
        = some (({ j with status := TrainingJobStatus.RUNNING,
                          started_at := some n1 }).add_log ts1
            "Training started") :=
      assocLookup_assocUpdate_self jid _ s.jobs (by rw [hj]; rfl)
    simp only [TrainingJob.add_log] at h2
    simp [TrainingService.run_start, h2, TrainingJob.add_log]

/-- Witness for claim C9 at a store holding one PENDING job: the first call
executes the pipeline, the immediate second call is a no-op. -/
theorem run_training_duplicate_noop_witness :
    assocLookup 1 svcC9.jobs = some jobC9
    ∧ jobC9.status = TrainingJobStatus.PENDING
    ∧ (svcC9.run_start 1 "t1" 0).2 = true
    ∧ (svcC9.run_start 1 "t1" 0).1.run_start 1 "t2" 1
        = ((svcC9.run_start 1 "t1" 0).1, false) := by
  have h := (run_training_duplicate_noop svcC9 1 "t1" "t2" 0 1).2.2 jobC9
    (by decide) (by decide)
  exact ⟨by decide, by decide, h.1, h.2⟩
